import Mathlib

/- Verification model of the afiche-generator repository: the Word-template
field-substitution engine, the three-variant PDF generation pipeline with
its LibreOffice conversion step and large-format (gigantografía) transform,
the temporary-file service, the security-question authentication state
machine, and the frontend session store and router guard.  All definitions
are shallow embeddings of the backend design sources
(.kiro/specs/generador-recursos-evangelisticos/design.md) and the Vue
frontend sources (stores/session.js, router/index.js, LoginView.vue). -/

namespace Afiche

/-- Python strings are modelled as lists of characters. -/
abbrev Str := List Char

/-- A modelled string from a Lean string literal. -/
def str (s : String) : Str := s.data

/-- Fuelled worker for `replaceAll`: each step consumes at least one
character, so `s.length` fuel always suffices. -/
def replaceAllFuel (pat rep : Str) : Nat → Str → Str
  | 0, s => s
  | fuel + 1, s =>
    match s with
    | [] => []
    | c :: rest =>
      if pat ≠ [] ∧ List.isPrefixOf pat (c :: rest) = true then
        rep ++ replaceAllFuel pat rep fuel (List.drop (pat.length - 1) rest)
      else
        c :: replaceAllFuel pat rep fuel rest

/-- Python `s.replace(pat, rep)`: every non-overlapping occurrence of `pat`
is replaced by `rep`, scanning left to right.  (Python inserts `rep` at
every position when `pat` is empty; no call site uses an empty pattern, and
the model leaves `s` unchanged there.) -/
def replaceAll (s pat rep : Str) : Str := replaceAllFuel pat rep s.length s

/-- Python `pat in s`: substring containment. -/
def containsSub (s pat : Str) : Bool :=
  match s with
  | [] => pat.isEmpty
  | c :: rest => List.isPrefixOf pat (c :: rest) || containsSub rest pat

/-! ## Template processor (services/template_processor.py) -/

/-- The event-field record handed to the template processor (the four keys
of the `data` dict built by the generate endpoint). -/
structure EventData where
  fecha_evento : Str
  hora_evento : Str
  lugar_evento : Str
  referencia_evento : Str
deriving DecidableEq

def fechaMarker : Str := str "\x7b\x7bfecha_evento\x7d\x7d"

def horaMarker : Str := str "\x7b\x7bhora_evento\x7d\x7d"

def lugarMarker : Str := str "\x7b\x7blugar_evento\x7d\x7d"

def referenciaMarker : Str := str "\x7b\x7breferencia_evento\x7d\x7d"

/-- The marker-to-value dict of `_replace_in_runs`, in insertion order. -/
def replacements (d : EventData) : List (Str × Str) :=
  [(fechaMarker, d.fecha_evento), (horaMarker, d.hora_evento),
   (lugarMarker, d.lugar_evento), (referenciaMarker, d.referencia_evento)]

/-- One iteration of the replacement loop over one run's text:
`if marker in run.text: run.text = run.text.replace(marker, value)`. -/
def replaceStep (acc : Str) (mv : Str × Str) : Str :=
  if containsSub acc mv.1 = true then replaceAll acc mv.1 mv.2 else acc

/-- The whole `_replace_in_runs` loop as it acts on one run's text. -/
def replaceInText (t : Str) (d : EventData) : Str :=
  (replacements d).foldl replaceStep t

/-- The markers indexed in dict order (for stating per-marker properties). -/
def markerAt : Fin 4 → Str
  | 0 => fechaMarker
  | 1 => horaMarker
  | 2 => lugarMarker
  | 3 => referenciaMarker

/-- The field values in the same order as `markerAt`. -/
def valueAt (d : EventData) : Fin 4 → Str
  | 0 => d.fecha_evento
  | 1 => d.hora_evento
  | 2 => d.lugar_evento
  | 3 => d.referencia_evento

/-- A run text decomposed into alternating gaps and marker occurrences:
`(g₀, k₀) :: (g₁, k₁) :: …` with a final `tail` assembles to
`g₀ ++ markerAt k₀ ++ g₁ ++ markerAt k₁ ++ … ++ tail`.  Any number of
markers and occurrences, in any order, can appear in one run. -/
def assembleOrig : List (Str × Fin 4) → Str → Str
  | [], tail => tail
  | (g, k) :: rest, tail => g ++ (markerAt k ++ assembleOrig rest tail)

/-- The simultaneous substitution the specification describes: every
marker occurrence of the decomposition replaced by its mapped field value,
every gap and the tail unchanged. -/
def assembleSubst (d : EventData) : List (Str × Fin 4) → Str → Str
  | [], tail => tail
  | (g, k) :: rest, tail => g ++ (valueAt d k ++ assembleSubst d rest tail)

/-- The occurrence with index `k`, as it stands after the passes for the
first `j` markers have run: already its value when `k < j`, still the
marker otherwise. -/
def mixPiece (d : EventData) (j : Nat) (k : Fin 4) : Str :=
  if (k : Nat) < j then valueAt d k else markerAt k

/-- The run text after the replacement passes for the first `j` markers:
`assembleMix d 0` is the original text and `assembleMix d 4` the fully
substituted text. -/
def assembleMix (d : EventData) (j : Nat) : List (Str × Fin 4) → Str → Str
  | [], tail => tail
  | (g, k) :: rest, tail => g ++ (mixPiece d j k ++ assembleMix d j rest tail)

/-- The occurrences of the decomposition are cleanly delimited for the
pass of marker `j`: scanning the pass-`j` text left to right, marker `j`
matches at no position inside a gap, inside another chunk's piece, or in
the tail — only at the chunk positions that carry marker `j` itself.
This fails exactly when an occurrence overlaps another, sits partly
outside the decomposition, or is newly created by an inserted value. -/
def passOKb (d : EventData) (j : Fin 4) : List (Str × Fin 4) → Str → Bool
  | [], tail => !(containsSub tail (markerAt j))
  | (g, k) :: rest, tail =>
    (List.range (if k = j then g.length
        else g.length + (mixPiece d j.val k).length)).all
      (fun i => !(List.isPrefixOf (markerAt j)
        (List.drop i (assembleMix d j.val ((g, k) :: rest) tail))))
    && passOKb d j rest tail

/-- A run of formatted text (python-docx `Run`): the code assigns only
`run.text`, so all run-level formatting is collapsed into one opaque
token that substitution never touches. -/
structure Run where
  text : Str
  fmt : Nat
deriving DecidableEq

structure Para where
  runs : List Run
deriving DecidableEq

structure TableCell where
  paras : List Para
deriving DecidableEq

structure TableRow where
  cells : List TableCell
deriving DecidableEq

structure DocxTable where
  rows : List TableRow
deriving DecidableEq

/-- A .docx document as python-docx exposes it to the processor: top-level
paragraphs plus tables of rows of cells of paragraphs. -/
structure DocxFile where
  paras : List Para
  tables : List DocxTable
deriving DecidableEq

def processRun (d : EventData) (r : Run) : Run :=
  { text := replaceInText r.text d, fmt := r.fmt }

def processPara (d : EventData) (p : Para) : Para :=
  { runs := p.runs.map (processRun d) }

def processCell (d : EventData) (c : TableCell) : TableCell :=
  { paras := c.paras.map (processPara d) }

def processRow (d : EventData) (r : TableRow) : TableRow :=
  { cells := r.cells.map (processCell d) }

def processTable (d : EventData) (t : DocxTable) : DocxTable :=
  { rows := t.rows.map (processRow d) }

/-- The two replacement loops of `process_template`: every document
paragraph, then every paragraph of every cell of every row of every table. -/
def processDoc (d : EventData) (doc : DocxFile) : DocxFile :=
  { paras := doc.paras.map (processPara d),
    tables := doc.tables.map (processTable d) }

/-! ## Exceptions and the temporary file store threaded through the
generator (services/document_generator.py) -/

/-- The exceptions the pipeline code can raise (plus `conversionFailed`,
the `ConversionFailed` failure the specification's taxonomy names; the
code itself never constructs it). -/
inductive PyErr where
  | fileNotFound (path : Str)
  | calledProcessError
  | pdfReadError
  | indexError
  | conversionFailed (msg : Str)
deriving DecidableEq

/-- `str(e)` of a raised exception, as recorded by `generate_all`. -/
def errMsg : PyErr → Str
  | .fileNotFound p => str "No such file or directory: " ++ p
  | .calledProcessError => str "Command returned non-zero exit status 1."
  | .pdfReadError => str "Unable to get page count."
  | .indexError => str "list index out of range"
  | .conversionFailed m => m

/-- Image color models as Pillow names them. -/
inductive ColorMode where
  | RGB
  | RGBA
  | L
  | CMYK
deriving DecidableEq

structure Img where
  mode : ColorMode
  width : Nat
  height : Nat
deriving DecidableEq

/-- One page of a produced PDF: its page-unit size and the raster drawn on
it at full bleed. -/
structure PdfPage where
  width : Nat
  height : Nat
  image : Img
deriving DecidableEq

inductive FileData where
  | docxFile (d : DocxFile)
  | pdfFile (pages : List PdfPage)
  | imageFile (i : Img)
  | blob
deriving DecidableEq

/-- The temporary-storage directory: filenames paired with contents. -/
abbrev Fs := List (Str × FileData)

def lookupFile (fs : Fs) (p : Str) : Option FileData :=
  (fs.find? (fun e => e.1 == p)).map Prod.snd

def removeFile (fs : Fs) (p : Str) : Fs :=
  fs.filter (fun e => e.1 != p)

def setFile (fs : Fs) (p : Str) (d : FileData) : Fs :=
  (p, d) :: removeFile fs p

/-- `os.path.join` (POSIX): an absolute second part wins; otherwise a
separator is inserted unless the first part is empty or already ends in
one. -/
def os_path_join (a b : Str) : Str :=
  if b.head? = some '/' then b
  else if a = [] ∨ a.getLast? = some '/' then a ++ b
  else a ++ str "/" ++ b

/-- `os.remove`: drop the file, raising `FileNotFoundError` if absent. -/
def os_remove (fs : Fs) (p : Str) : Except PyErr Unit × Fs :=
  match lookupFile fs p with
  | none => (.error (.fileNotFound p), fs)
  | some _ => (.ok (), removeFile fs p)

/-! ## Document generator (services/document_generator.py) -/

/-- Behaviour of one headless LibreOffice invocation: its exit status, and
whether it writes the PDF named after the input's base name. -/
structure ConvEnv where
  exitOk : Bool
  produces : Bool
deriving DecidableEq

/-- The pipeline's external environment: the two template files on disk
(`none` = missing) and the behaviour of each external-tool invocation. -/
structure Env where
  tplA4 : Option DocxFile
  tpl4x1 : Option DocxFile
  convA4 : ConvEnv
  conv4x1 : ConvEnv
  convGiga : ConvEnv
  rasterGiga : Option (List Img)
deriving DecidableEq

def tplPathA4 : Str := str "./Formato a4.docx"

def tplPath4x1 : Str := str "./Formato 4x1.docx"

/-- `TemplateProcessor.process_template`: check the template file exists
(else `FileNotFoundError`), replace the markers in every paragraph run and
every table-cell run, and save the filled document at the output path. -/
def process_template (tpl : Option DocxFile) (tplPath : Str) (d : EventData)
    (outPath : Str) (fs : Fs) : Except PyErr Unit × Fs :=
  match tpl with
  | none => (.error (.fileNotFound tplPath), fs)
  | some doc => (.ok (), setFile fs outPath (.docxFile (processDoc d doc)))

/-- The name LibreOffice gives its output: the input's base name with the
final `.docx` swapped for `.pdf`, in the requested output directory (every
call site keeps input and output in the same directory). -/
def libreOutputPath (docxPath : Str) : Str :=
  if List.isSuffixOf (str ".docx") docxPath = true then
    List.take (docxPath.length - 5) docxPath ++ str ".pdf"
  else
    docxPath ++ str ".pdf"

/-- `DocumentGenerator._convert_docx_to_pdf`: run LibreOffice headless with
`check=True` (a non-zero exit raises `CalledProcessError`), then rename the
output to the requested path.  The code computes the produced name with
`docx_path.replace(".docx", ".pdf")` — replacing every occurrence — and
when that name already equals the requested path it skips the rename and
performs no existence check at all; when it differs, a missing file at the
computed name makes `os.rename` raise a plain `FileNotFoundError`. -/
def convert_docx_to_pdf (cenv : ConvEnv) (docxPath pdfPath : Str) (fs : Fs) :
    Except PyErr Unit × Fs :=
  if cenv.exitOk = false then (.error .calledProcessError, fs)
  else
    let fs1 := if cenv.produces = true then setFile fs (libreOutputPath docxPath) .blob else fs
    let generated := replaceAll docxPath (str ".docx") (str ".pdf")
    if generated = pdfPath then (.ok (), fs1)
    else
      match lookupFile fs1 generated with
      | none => (.error (.fileNotFound generated), fs1)
      | some dd => (.ok (), setFile (removeFile fs1 generated) pdfPath dd)

/-- `pdf2image.convert_from_path(pdf, dpi=300)` followed by `images[0]`:
the renderer's page list is environment-supplied; a missing input file or a
renderer failure raises, and an empty page list makes the `[0]` subscript
raise `IndexError`. -/
def rasterize (pages : Option (List Img)) (path : Str) (fs : Fs) :
    Except PyErr Img :=
  match lookupFile fs path with
  | none => .error (.fileNotFound path)
  | some _ =>
    match pages with
    | none => .error .pdfReadError
    | some [] => .error .indexError
    | some (i :: _) => .ok i

/-- `DocumentGenerator._generate_a4`: fill the a4 template, convert it to
PDF, return the recorded filename. -/
def generate_a4 (env : Env) (TS : Str) (d : EventData) (P : Str) (fs : Fs) :
    Except PyErr Str × Fs :=
  let docxPath := os_path_join TS (P ++ str "_a4.docx")
  let pdfPath := os_path_join TS (P ++ str "_a4.pdf")
  match process_template env.tplA4 tplPathA4 d docxPath fs with
  | (.error e, fs1) => (.error e, fs1)
  | (.ok _, fs1) =>
    match convert_docx_to_pdf env.convA4 docxPath pdfPath fs1 with
    | (.error e, fs2) => (.error e, fs2)
    | (.ok _, fs2) => (.ok (P ++ str "_a4.pdf"), fs2)

/-- `DocumentGenerator._generate_4x1`. -/
def generate_4x1 (env : Env) (TS : Str) (d : EventData) (P : Str) (fs : Fs) :
    Except PyErr Str × Fs :=
  let docxPath := os_path_join TS (P ++ str "_4x1.docx")
  let pdfPath := os_path_join TS (P ++ str "_4x1.pdf")
  match process_template env.tpl4x1 tplPath4x1 d docxPath fs with
  | (.error e, fs1) => (.error e, fs1)
  | (.ok _, fs1) =>
    match convert_docx_to_pdf env.conv4x1 docxPath pdfPath fs1 with
    | (.error e, fs2) => (.error e, fs2)
    | (.ok _, fs2) => (.ok (P ++ str "_4x1.pdf"), fs2)

/-- `img.convert('CMYK')` guarded by the mode test of
`_generate_gigantografia`: convert only when not already CMYK. -/
def cmykOf (img0 : Img) : Img :=
  if img0.mode ≠ ColorMode.CMYK then { img0 with mode := ColorMode.CMYK } else img0

/-- The raster after CMYK conversion and the LANCZOS resize to
`target_size = (11811, 17717)` — 100 cm × 150 cm at 300 DPI; resizing
keeps the color mode and sets the pixel size. -/
def gigaRaster (img0 : Img) : Img :=
  { mode := (cmykOf img0).mode, width := 11811, height := 17717 }

/-- The tail of `_generate_gigantografia` after rasterization: save the
resized raster to the temporary TIFF, draw it at full bleed (origin 0,0,
width 11811, height 17717) on a reportlab canvas with
`pagesize=(11811, 17717)`, save the one-page final PDF, then `os.remove`
the three intermediates — the removes run only on this success path (the
source has no try/finally) and raise on failure. -/
def gigaFinish (TS P : Str) (img0 : Img) (fs2 : Fs) : Except PyErr Str × Fs :=
  let fs3 := setFile fs2 (os_path_join TS (P ++ str "_temp.tiff"))
      (.imageFile (gigaRaster img0))
  let fs4 := setFile fs3 (os_path_join TS (P ++ str "_gigantografia.pdf"))
      (.pdfFile [{ width := 11811, height := 17717, image := gigaRaster img0 }])
  match os_remove fs4 (os_path_join TS (P ++ str "_temp.tiff")) with
  | (.error e, fs5) => (.error e, fs5)
  | (.ok _, fs5) =>
    match os_remove fs5 (os_path_join TS (P ++ str "_giga_temp.pdf")) with
    | (.error e, fs6) => (.error e, fs6)
    | (.ok _, fs6) =>
      match os_remove fs6 (os_path_join TS (P ++ str "_giga_temp.docx")) with
      | (.error e, fs7) => (.error e, fs7)
      | (.ok _, fs7) => (.ok (P ++ str "_gigantografia.pdf"), fs7)

/-- `DocumentGenerator._generate_gigantografia`: fill the a4 template,
convert to a temporary PDF, rasterize its first page at 300 DPI, then run
the CMYK/resize/draw/save/cleanup tail (`gigaFinish`). -/
def generate_gigantografia (env : Env) (TS : Str) (d : EventData) (P : Str)
    (fs : Fs) : Except PyErr Str × Fs :=
  let docxPath := os_path_join TS (P ++ str "_giga_temp.docx")
  let pdfTempPath := os_path_join TS (P ++ str "_giga_temp.pdf")
  match process_template env.tplA4 tplPathA4 d docxPath fs with
  | (.error e, fs1) => (.error e, fs1)
  | (.ok _, fs1) =>
    match convert_docx_to_pdf env.convGiga docxPath pdfTempPath fs1 with
    | (.error e, fs2) => (.error e, fs2)
    | (.ok _, fs2) =>
      match rasterize env.rasterGiga pdfTempPath fs2 with
      | .error e => (.error e, fs2)
      | .ok img => gigaFinish TS P img fs2

inductive GenStatus where
  | success
  | error
deriving DecidableEq

/-- One entry of the `generate_all` result list. -/
structure DocInfo where
  type : Str
  filename : Str
  status : GenStatus
  message : Option Str
deriving DecidableEq

/-- `DocumentGenerator.generate_all`: run the three variants in fixed
order, each inside its own try/except that converts any raised exception
into a status=error entry and continues with the next variant. -/
def generate_all (env : Env) (TS : Str) (d : EventData) (P : Str) (fs : Fs) :
    List DocInfo × Fs :=
  let (r1, fs1) := generate_a4 env TS d P fs
  let e1 : DocInfo :=
    match r1 with
    | .ok fn => { type := str "a4", filename := fn, status := .success, message := none }
    | .error e => { type := str "a4", filename := [], status := .error, message := some (errMsg e) }
  let (r2, fs2) := generate_4x1 env TS d P fs1
  let e2 : DocInfo :=
    match r2 with
    | .ok fn => { type := str "4x1", filename := fn, status := .success, message := none }
    | .error e => { type := str "4x1", filename := [], status := .error, message := some (errMsg e) }
  let (r3, fs3) := generate_gigantografia env TS d P fs2
  let e3 : DocInfo :=
    match r3 with
    | .ok fn => { type := str "gigantografia", filename := fn, status := .success, message := none }
    | .error e => { type := str "gigantografia", filename := [], status := .error, message := some (errMsg e) }
  ([e1, e2, e3], fs3)

/-- The result entry a variant pipeline's outcome determines (used to state
properties of `generate_all`). -/
def entryOf (ty : Str) (r : Except PyErr Str) : DocInfo :=
  match r with
  | .ok fn => { type := ty, filename := fn, status := .success, message := none }
  | .error e => { type := ty, filename := [], status := .error, message := some (errMsg e) }

/-- The three document variants. -/
inductive Variant where
  | compact
  | banner
  | large_format
deriving DecidableEq

/-- The fixed filename-suffix mapping. -/
def suffixOf : Variant → Str
  | .compact => str "a4"
  | .banner => str "4x1"
  | .large_format => str "gigantografia"

/-! ## File service (services/file_service.py) -/

/-- One entry of the real filesystem as the OS sees it: a resolved path
(as segments) and whether it is a regular file. -/
structure OsEntry where
  path : List Str
  isFile : Bool
deriving DecidableEq

abbrev OsFs := List OsEntry

/-- Split a slash-separated path into segments. -/
def splitSegs : Str → List Str
  | [] => [[]]
  | c :: rest =>
    if c = '/' then [] :: splitSegs rest
    else
      match splitSegs rest with
      | [] => [[c]]
      | s :: ss => (c :: s) :: ss

/-- How the operating system resolves a path before an access: empty and
`.` segments vanish and `..` pops the previous segment. -/
def resolveSegs (segs : List Str) : List Str :=
  segs.foldl
    (fun acc s =>
      if s = [] ∨ s = str "." then acc
      else if s = str ".." then acc.dropLast
      else acc ++ [s]) []

def resolvePath (p : Str) : List Str := resolveSegs (splitSegs p)

/-- `os.path.exists`: some entry — regular file or directory — exists at
the resolved path. -/
def osExists (ofs : OsFs) (p : Str) : Bool :=
  ofs.any (fun e => e.path == resolvePath p)

/-- `FileService.get_file_path`: join the storage root with the supplied
filename and return the joined path whenever anything exists there. -/
def get_file_path (storage : Str) (ofs : OsFs) (filename : Str) : Option Str :=
  let p := os_path_join storage filename
  if osExists ofs p = true then some p else none

/-- A directory entry of the storage root as `os.listdir` reports it, with
its `os.path.getmtime` timestamp and `os.path.isfile` status. -/
structure TmpFile where
  name : Str
  mtime : Int
  isFile : Bool
deriving DecidableEq

/-- The sweep loop of `FileService.cleanup_old_files`: regular files with
mtime below the cutoff are removed; a failing `os.remove` (the names in
`undeletable`) is caught, logged and the sweep continues. -/
def sweepFiles (cutoff : Int) (undeletable : List Str) :
    List TmpFile → List TmpFile
  | [] => []
  | e :: rest =>
    if e.isFile = true ∧ e.mtime < cutoff then
      if undeletable.contains e.name = true then
        e :: sweepFiles cutoff undeletable rest
      else
        sweepFiles cutoff undeletable rest
    else
      e :: sweepFiles cutoff undeletable rest

/-- `FileService.cleanup_old_files`: cutoff = now − cleanup_hours·3600. -/
def cleanup_old_files (entries : List TmpFile) (undeletable : List Str)
    (now : Int) (cleanup_hours : Int) : List TmpFile :=
  sweepFiles (now - cleanup_hours * 3600) undeletable entries

/-- Whether the sweep keeps an entry. -/
def keptFile (cutoff : Int) (undeletable : List Str) (e : TmpFile) : Bool :=
  !(e.isFile && decide (e.mtime < cutoff) && !(undeletable.contains e.name))

/-! ## Auth service (services/auth_service.py) -/

structure Question where
  number : Nat
  text : Str
  answer : Str
deriving DecidableEq

def question1 : Question :=
  { number := 1, text := str "¿Cuál es el nombre de tu iglesia?",
    answer := str "iglesia central" }

def question2 : Question :=
  { number := 2, text := str "¿En qué ciudad se realizará el evento?",
    answer := str "lima" }

def question3 : Question :=
  { number := 3, text := str "¿Cuál es el tema de la campaña?",
    answer := str "esperanza viva" }

def security_questions : List Question := [question1, question2, question3]

/-- Python's `\s` class (ASCII range). -/
def isPySpace (c : Char) : Bool :=
  c = ' ' ∨ c = '\t' ∨ c = '\n' ∨ c = '\r' ∨ c = '\x0b' ∨ c = '\x0c'

/-- Python's `\w` class, restricted to ASCII (every stored answer and every
marker is ASCII). -/
def isWordChar (c : Char) : Bool := c.isAlphanum || c = '_'

/-- Python `str.strip()`. -/
def pyStrip (s : Str) : Str :=
  ((s.dropWhile isPySpace).reverse.dropWhile isPySpace).reverse

/-- `re.sub(r'\s+', ' ', t)`: each maximal whitespace run becomes one
space.  The flag records whether the previous character was whitespace. -/
def collapseWs (inRun : Bool) : Str → Str
  | [] => []
  | c :: rest =>
    if isPySpace c = true then
      if inRun then collapseWs true rest
      else ' ' :: collapseWs true rest
    else
      c :: collapseWs false rest

/-- `AuthService._normalize_text`: strip, lowercase, drop punctuation
(everything outside `\w` and `\s`), collapse whitespace runs. -/
def normalize_text (s : Str) : Str :=
  collapseWs false
    (((pyStrip s).map Char.toLower).filter (fun c => isWordChar c || isPySpace c))

/-- The per-session record of `AuthService`. -/
structure SessionData where
  session_id : Str
  current_question : Nat
  authenticated : Bool
deriving DecidableEq

abbrev Sessions := List (Str × SessionData)

def lookupSession (ss : Sessions) (sid : Str) : Option SessionData :=
  (ss.find? (fun e => e.1 == sid)).map Prod.snd

def updateSession (ss : Sessions) (sid : Str) (f : SessionData → SessionData) :
    Sessions :=
  ss.map (fun e => if e.1 == sid then (e.1, f e.2) else e)

structure ValidationResponse where
  success : Bool
  message : Option Str
  next_question : Option Nat
  question_text : Option Str
deriving DecidableEq

/-- `AuthService.validate_answer`.  The question number comes from the
request; the model covers the calls the claim ranges over
(`question_number ∈ {1, 2, 3}` — Python's negative indexing for 0 lies
outside that range and is modelled as an index error). -/
def validate_answer (ss : Sessions) (sid : Str) (qn : Nat) (answer : Str) :
    Except Str (Sessions × ValidationResponse) :=
  match lookupSession ss sid with
  | none => .error (str "Sesión inválida")
  | some _ =>
    match security_questions[qn - 1]? with
    | none => .error (str "list index out of range")
    | some q =>
      if normalize_text answer = q.answer then
        if qn = 3 then
          .ok (updateSession ss sid (fun s => { s with authenticated := true }),
               { success := true, message := some (str "Autenticación exitosa"),
                 next_question := none, question_text := none })
        else
          match security_questions[qn]? with
          | none => .error (str "list index out of range")
          | some nq =>
            .ok (updateSession ss sid (fun s => { s with current_question := qn + 1 }),
                 { success := true, message := none,
                   next_question := some nq.number, question_text := some nq.text })
      else
        .ok (updateSession ss sid (fun s => { s with current_question := 1 }),
             { success := false,
               message := some (str "Respuesta incorrecta. Reiniciando..."),
               next_question := some 1, question_text := some question1.text })

/-- The expected (already normalized, as stored) answer of question `qn`. -/
def expectedAnswer (qn : Nat) : Str :=
  ((security_questions[qn - 1]?).map Question.answer).getD []

/-! ## Frontend session store (stores/session.js) and router guard
(router/index.js) -/

structure StoreState where
  sessionId : Option Str
  authenticated : Bool
deriving DecidableEq

inductive StoreOp where
  | setSession (id : Str)
  | setAuthenticated (v : Bool)
  | clearSession
deriving DecidableEq

/-- The three actions of the Pinia session store. -/
def applyOp (s : StoreState) : StoreOp → StoreState
  | .setSession id => { s with sessionId := some id }
  | .setAuthenticated v => { s with authenticated := v }
  | .clearSession => { sessionId := none, authenticated := false }

def applyOps (s : StoreState) (ops : List StoreOp) : StoreState :=
  ops.foldl applyOp s

/-- The store's `isAuthenticated` computed:
`authenticated.value && sessionId.value !== null`. -/
def isAuthenticated (s : StoreState) : Bool :=
  s.authenticated && s.sessionId.isSome

structure RouteMeta where
  requiresAuth : Bool
deriving DecidableEq

inductive NavTarget where
  | proceed
  | redirectLogin
deriving DecidableEq

/-- The `router.beforeEach` guard. -/
def beforeEach (r : RouteMeta) (s : StoreState) : NavTarget :=
  if r.requiresAuth && !(isAuthenticated s) then .redirectLogin else .proceed

/-! ## Concrete fixtures for witnesses and counterexamples -/

def sampleRun : Run := { text := str "Fecha: \x7b\x7bfecha_evento\x7d\x7d", fmt := 7 }

def sampleDoc : DocxFile := { paras := [{ runs := [sampleRun] }], tables := [] }

def dW : EventData :=
  { fecha_evento := str "15 de Diciembre", hora_evento := str "7:00 PM",
    lugar_evento := str "AUDITORIO CENTRAL", referencia_evento := [] }

def TSW : Str := str "tmp"

def PW : Str := str "p"

/-- An environment in which every external step succeeds. -/
def envW : Env :=
  { tplA4 := some sampleDoc, tpl4x1 := some sampleDoc,
    convA4 := { exitOk := true, produces := true },
    conv4x1 := { exitOk := true, produces := true },
    convGiga := { exitOk := true, produces := true },
    rasterGiga := some [{ mode := .RGB, width := 2481, height := 3507 }] }

/-- Like `envW`, but the rasterization of the intermediate PDF fails. -/
def envFail : Env := { envW with rasterGiga := none }

def sid1 : Str := str "sid1"

/-- A fresh session at question 1, not authenticated. -/
def sess1 : SessionData :=
  { session_id := str "sid1", current_question := 1, authenticated := false }

def ssW : Sessions := [(sid1, sess1)]

/-- A user answer for question 1 that is correct after normalization. -/
def ansW : Str := str " IGLESIA central!! "

/-- Event data whose fecha value is itself the hora marker: feeds the
second replacement pass. -/
def dCex : EventData :=
  { fecha_evento := horaMarker, hora_evento := str "X",
    lugar_evento := str "L", referencia_evento := [] }

/-- A run with two fecha occurrences, one hora occurrence and one
reference occurrence, decomposed into gaps and markers. -/
def psW : List (Str × Fin 4) :=
  [(str "A ", 0), (str " B ", 1), (str " y ", 0), (str " C ", 3)]

def tailW : Str := str "!"

/-! ## Helper lemmas: the replacement scan -/

theorem isPrefixOf_append_self (p y : Str) : List.isPrefixOf p (p ++ y) = true := by
  rw [List.isPrefixOf_iff_prefix]
  exact List.prefix_append p y

theorem replaceAllFuel_succ_cons (pat rep : Str) (f : Nat) (c : Char) (rest : Str) :
    replaceAllFuel pat rep (f + 1) (c :: rest) =
      if pat ≠ [] ∧ List.isPrefixOf pat (c :: rest) = true then
        rep ++ replaceAllFuel pat rep f (List.drop (pat.length - 1) rest)
      else
        c :: replaceAllFuel pat rep f rest := rfl

theorem replaceAllFuel_of_not_contains (pat rep : Str) :
    ∀ (fuel : Nat) (s : Str), containsSub s pat = false →
      replaceAllFuel pat rep fuel s = s := by
  intro fuel
  induction fuel with
  | zero => intro s _; rfl
  | succ f ih =>
    intro s hs
    cases s with
    | nil => rfl
    | cons c rest =>
      rw [containsSub, Bool.or_eq_false_iff] at hs
      rw [replaceAllFuel_succ_cons,
        if_neg (fun hc => by rw [hc.2] at hs; exact absurd hs.1 (by simp))]
      rw [ih rest hs.2]

theorem replaceAll_of_not_contains (s pat rep : Str) (h : containsSub s pat = false) :
    replaceAll s pat rep = s :=
  replaceAllFuel_of_not_contains pat rep s.length s h

theorem replaceAllFuel_passthrough (p v : Str) :
    ∀ (pre R : Str) (fuel : Nat), pre.length ≤ fuel →
      (∀ i, i < pre.length → List.isPrefixOf p (List.drop i (pre ++ R)) = false) →
      replaceAllFuel p v fuel (pre ++ R) =
        pre ++ replaceAllFuel p v (fuel - pre.length) R := by
  intro pre
  induction pre with
  | nil =>
    intro R fuel _ _
    simp only [List.nil_append, List.length_nil, Nat.sub_zero]
  | cons c pre' ih =>
    intro R fuel hf h
    match fuel, hf with
    | f + 1, hf =>
      have h0 : List.isPrefixOf p (c :: (pre' ++ R)) = false := by
        have := h 0 (by simp)
        simpa using this
      simp only [List.cons_append, List.length_cons, Nat.add_sub_add_right]
      rw [replaceAllFuel_succ_cons,
        if_neg (fun hc => by rw [h0] at hc; exact absurd hc.2 (by simp))]
      rw [ih R f (by simpa using hf)
        (fun i hi => by simpa using h (i + 1) (by simpa using hi))]

theorem replaceAllFuel_hit (p v R : Str) (hp : p ≠ []) (f : Nat) :
    replaceAllFuel p v (f + 1) (p ++ R) = v ++ replaceAllFuel p v f R := by
  cases p with
  | nil => exact absurd rfl hp
  | cons pc pt =>
    rw [List.cons_append, replaceAllFuel_succ_cons,
      if_pos ⟨hp, by rw [← List.cons_append]; exact isPrefixOf_append_self _ _⟩]
    have hdrop : List.drop ((pc :: pt).length - 1) (pt ++ R) = R := by
      simp only [List.length_cons, Nat.add_sub_cancel]
      exact List.drop_left pt R
    rw [hdrop]

theorem replaceStep_eq (t : Str) (mv : Str × Str) :
    replaceStep t mv = replaceAll t mv.1 mv.2 := by
  rw [replaceStep]
  by_cases hc : containsSub t mv.1 = true
  · rw [if_pos hc]
  · rw [if_neg hc,
      replaceAll_of_not_contains t mv.1 mv.2 (by simpa using hc)]

/-! ## Helper lemmas: the temporary-file store -/

theorem lookupFile_setFile_self (fs : Fs) (p : Str) (dd : FileData) :
    lookupFile (setFile fs p dd) p = some dd := by
  rw [setFile, lookupFile, List.find?_cons_of_pos _ (by simp)]
  rfl

theorem lookupFile_removeFile_self (fs : Fs) (p : Str) :
    lookupFile (removeFile fs p) p = none := by
  induction fs with
  | nil => rfl
  | cons e rest ih =>
    rw [removeFile, List.filter_cons]
    by_cases h : e.1 = p
    · rw [if_neg (by simp [h])]
      exact ih
    · rw [if_pos (bne_iff_ne.mpr h), lookupFile,
        List.find?_cons_of_neg _ (by simp [h])]
      exact ih

theorem lookupFile_removeFile_ne (fs : Fs) (p q : Str) (h : q ≠ p) :
    lookupFile (removeFile fs p) q = lookupFile fs q := by
  induction fs with
  | nil => rfl
  | cons e rest ih =>
    rw [removeFile, List.filter_cons]
    by_cases he : e.1 = p
    · rw [if_neg (by simp [he])]
      have hr : lookupFile (e :: rest) q = lookupFile rest q := by
        rw [lookupFile, List.find?_cons_of_neg _
          (by simp only [beq_iff_eq, he]; exact fun hq => h hq.symm)]
        rfl
      rw [hr]
      exact ih
    · rw [if_pos (bne_iff_ne.mpr he)]
      by_cases hq : e.1 = q
      · rw [lookupFile, lookupFile, List.find?_cons_of_pos _ (by simp [hq]),
          List.find?_cons_of_pos _ (by simp [hq])]
      · rw [lookupFile, lookupFile, List.find?_cons_of_neg _ (by simp [hq]),
          List.find?_cons_of_neg _ (by simp [hq])]
        exact ih

theorem lookupFile_setFile_ne (fs : Fs) (p q : Str) (dd : FileData) (h : q ≠ p) :
    lookupFile (setFile fs p dd) q = lookupFile fs q := by
  rw [setFile, lookupFile,
    List.find?_cons_of_neg _ (by simp only [beq_iff_eq]; exact fun hq => h hq.symm)]
  exact lookupFile_removeFile_ne fs p q h

theorem os_remove_ok {fs fs' : Fs} {p : Str} {u : Unit}
    (h : os_remove fs p = (.ok u, fs')) : fs' = removeFile fs p := by
  rw [os_remove] at h
  split at h
  · exact absurd h (by simp)
  · simp only [Prod.mk.injEq] at h
    exact h.2.symm

/-! ## Helper lemmas: path distinctness -/

theorem head?_append_congr (P : Str) {s t : Str} (h : s.head? = t.head?) :
    (P ++ s).head? = (P ++ t).head? := by
  cases P with
  | nil => simpa using h
  | cons c P' => simp

theorem os_path_join_right_ne (a : Str) {b c : Str} (hbc : b ≠ c)
    (hhead : b.head? = c.head?) : os_path_join a b ≠ os_path_join a c := by
  intro hc
  rw [os_path_join, os_path_join] at hc
  by_cases h1 : c.head? = some '/'
  · rw [if_pos (hhead.trans h1), if_pos h1] at hc
    exact hbc hc
  · rw [if_neg (fun hb1 => h1 (hhead.symm.trans hb1)), if_neg h1] at hc
    by_cases h2 : a = [] ∨ a.getLast? = some '/'
    · rw [if_pos h2, if_pos h2] at hc
      exact hbc (List.append_cancel_left hc)
    · rw [if_neg h2, if_neg h2] at hc
      exact hbc (List.append_cancel_left hc)

theorem storage_path_ne (TS P : Str) {s t : Str} (hst : s ≠ t)
    (hh : s.head? = t.head?) :
    os_path_join TS (P ++ s) ≠ os_path_join TS (P ++ t) :=
  os_path_join_right_ne TS (fun hc => hst (List.append_cancel_left hc))
    (head?_append_congr P hh)

theorem append_regroup (P x y z w : Str) (h : x ++ y ++ z = w) :
    P ++ w = P ++ x ++ y ++ z := by
  rw [← h]
  simp [List.append_assoc]

/-! ## Helpers: the four sequential passes compute the simultaneous
substitution on a cleanly delimited run -/

theorem markerAt_ne_nil (j : Fin 4) : markerAt j ≠ [] := by
  fin_cases j <;> decide

theorem mixPiece_self (d : EventData) (j : Fin 4) :
    mixPiece d j.val j = markerAt j := by
  rw [mixPiece, if_neg (lt_irrefl _)]

theorem mixPiece_succ_self (d : EventData) (j : Fin 4) :
    mixPiece d (j.val + 1) j = valueAt d j := by
  rw [mixPiece, if_pos (Nat.lt_succ_self _)]

theorem mixPiece_succ_of_ne (d : EventData) (j k : Fin 4) (h : k ≠ j) :
    mixPiece d (j.val + 1) k = mixPiece d j.val k := by
  rw [mixPiece, mixPiece]
  by_cases h1 : (k : Nat) < j.val
  · rw [if_pos (Nat.lt_succ_of_lt h1), if_pos h1]
  · have hne : (k : Nat) ≠ j.val := fun hv => h (Fin.ext hv)
    have h2 : ¬ ((k : Nat) < j.val + 1) := by omega
    rw [if_neg h1, if_neg h2]

theorem assembleMix_zero (d : EventData) (ps : List (Str × Fin 4)) (tail : Str) :
    assembleMix d 0 ps tail = assembleOrig ps tail := by
  induction ps with
  | nil => rfl
  | cons e rest ih =>
    obtain ⟨g, k⟩ := e
    rw [assembleMix, assembleOrig, ih, mixPiece, if_neg (Nat.not_lt_zero _)]

theorem assembleMix_four (d : EventData) (ps : List (Str × Fin 4)) (tail : Str) :
    assembleMix d 4 ps tail = assembleSubst d ps tail := by
  induction ps with
  | nil => rfl
  | cons e rest ih =>
    obtain ⟨g, k⟩ := e
    rw [assembleMix, assembleSubst, ih, mixPiece, if_pos k.isLt]

theorem replaceAllFuel_pass_all (d : EventData) (j : Fin 4) :
    ∀ (ps : List (Str × Fin 4)) (tail : Str) (fuel : Nat),
      (assembleMix d j.val ps tail).length ≤ fuel →
      passOKb d j ps tail = true →
      replaceAllFuel (markerAt j) (valueAt d j) fuel (assembleMix d j.val ps tail)
        = assembleMix d (j.val + 1) ps tail := by
  intro ps
  induction ps with
  | nil =>
    intro tail fuel _ hok
    rw [passOKb] at hok
    show replaceAllFuel (markerAt j) (valueAt d j) fuel tail = tail
    exact replaceAllFuel_of_not_contains _ _ fuel tail (by simpa using hok)
  | cons e rest ih =>
    obtain ⟨g, k⟩ := e
    intro tail fuel hfuel hok
    rw [passOKb, Bool.and_eq_true] at hok
    obtain ⟨hhead, hrest⟩ := hok
    by_cases hkj : k = j
    · subst hkj
      have htext : assembleMix d k.val ((g, k) :: rest) tail =
          g ++ (markerAt k ++ assembleMix d k.val rest tail) := by
        rw [assembleMix, mixPiece_self]
      have hm1 : 1 ≤ (markerAt k).length :=
        List.length_pos.mpr (markerAt_ne_nil k)
      rw [htext] at hfuel
      have hlen := hfuel
      rw [List.length_append, List.length_append] at hlen
      have hcond : ∀ i, i < g.length →
          List.isPrefixOf (markerAt k)
            (List.drop i (g ++ (markerAt k ++ assembleMix d k.val rest tail)))
              = false := by
        intro i hi
        have hmem := List.all_eq_true.mp hhead i
          (List.mem_range.mpr (by rw [if_pos rfl]; exact hi))
        simpa [htext] using hmem
      rw [htext, replaceAllFuel_passthrough (markerAt k) (valueAt d k) g _
        fuel (by omega) hcond]
      obtain ⟨f', hf'⟩ : ∃ f', fuel - g.length = f' + 1 :=
        ⟨fuel - g.length - 1, by omega⟩
      rw [hf', replaceAllFuel_hit _ _ _ (markerAt_ne_nil k) f']
      rw [ih tail f' (by omega) hrest]
      rw [assembleMix, mixPiece_succ_self]
    · have htext : assembleMix d j.val ((g, k) :: rest) tail =
          (g ++ mixPiece d j.val k) ++ assembleMix d j.val rest tail := by
        rw [assembleMix, List.append_assoc]
      rw [htext] at hfuel
      have hlen := hfuel
      rw [List.length_append] at hlen
      have hcond : ∀ i, i < (g ++ mixPiece d j.val k).length →
          List.isPrefixOf (markerAt j)
            (List.drop i ((g ++ mixPiece d j.val k) ++
              assembleMix d j.val rest tail)) = false := by
        intro i hi
        have hmem := List.all_eq_true.mp hhead i
          (List.mem_range.mpr
            (by rw [if_neg hkj]; rw [List.length_append] at hi; exact hi))
        simpa [htext] using hmem
      rw [htext, replaceAllFuel_passthrough (markerAt j) (valueAt d j) _ _
        fuel (by omega) hcond]
      rw [ih tail (fuel - (g ++ mixPiece d j.val k).length) (by omega) hrest]
      rw [assembleMix, mixPiece_succ_of_ne d j k hkj, List.append_assoc]

theorem replaceInText_assemble (d : EventData) (ps : List (Str × Fin 4))
    (tail : Str) (h : ∀ j : Fin 4, passOKb d j ps tail = true) :
    replaceInText (assembleOrig ps tail) d = assembleSubst d ps tail := by
  have p0 : replaceAll (assembleMix d 0 ps tail) fechaMarker d.fecha_evento
      = assembleMix d 1 ps tail :=
    replaceAllFuel_pass_all d 0 ps tail
      (assembleMix d (0 : Fin 4).val ps tail).length le_rfl (h 0)
  have p1 : replaceAll (assembleMix d 1 ps tail) horaMarker d.hora_evento
      = assembleMix d 2 ps tail :=
    replaceAllFuel_pass_all d 1 ps tail
      (assembleMix d (1 : Fin 4).val ps tail).length le_rfl (h 1)
  have p2 : replaceAll (assembleMix d 2 ps tail) lugarMarker d.lugar_evento
      = assembleMix d 3 ps tail :=
    replaceAllFuel_pass_all d 2 ps tail
      (assembleMix d (2 : Fin 4).val ps tail).length le_rfl (h 2)
  have p3 : replaceAll (assembleMix d 3 ps tail) referenciaMarker d.referencia_evento
      = assembleMix d 4 ps tail :=
    replaceAllFuel_pass_all d 3 ps tail
      (assembleMix d (3 : Fin 4).val ps tail).length le_rfl (h 3)
  simp only [replaceInText, replacements, List.foldl_cons, List.foldl_nil,
    replaceStep_eq]
  rw [← assembleMix_zero d ps tail, p0, p1, p2, p3]
  exact assembleMix_four d ps tail

/-! ## Helpers: the shape of the store after a successful large-format run -/

theorem gigaRaster_mode (img0 : Img) : (gigaRaster img0).mode = ColorMode.CMYK := by
  rw [gigaRaster, cmykOf]
  by_cases hm : img0.mode = ColorMode.CMYK
  · simp [hm]
  · simp [hm]

theorem gigaFinish_ok_shape (TS P : Str) (img0 : Img) (fs2 : Fs) (fn : Str)
    (h : (gigaFinish TS P img0 fs2).1 = .ok fn) :
    gigaFinish TS P img0 fs2 =
      (.ok (P ++ str "_gigantografia.pdf"),
       removeFile (removeFile (removeFile
         (setFile
           (setFile fs2 (os_path_join TS (P ++ str "_temp.tiff"))
             (.imageFile (gigaRaster img0)))
           (os_path_join TS (P ++ str "_gigantografia.pdf"))
           (.pdfFile [{ width := 11811, height := 17717, image := gigaRaster img0 }]))
         (os_path_join TS (P ++ str "_temp.tiff")))
         (os_path_join TS (P ++ str "_giga_temp.pdf")))
         (os_path_join TS (P ++ str "_giga_temp.docx"))) := by
  rcases hr1 : os_remove
      (setFile
        (setFile fs2 (os_path_join TS (P ++ str "_temp.tiff"))
          (.imageFile (gigaRaster img0)))
        (os_path_join TS (P ++ str "_gigantografia.pdf"))
        (.pdfFile [{ width := 11811, height := 17717, image := gigaRaster img0 }]))
      (os_path_join TS (P ++ str "_temp.tiff")) with ⟨rr1, fs5⟩
  rcases rr1 with e | u1
  · simp only [gigaFinish, hr1] at h
    exact absurd h (by simp)
  · rcases hr2 : os_remove fs5 (os_path_join TS (P ++ str "_giga_temp.pdf")) with ⟨rr2, fs6⟩
    rcases rr2 with e | u2
    · simp only [gigaFinish, hr1, hr2] at h
      exact absurd h (by simp)
    · rcases hr3 : os_remove fs6 (os_path_join TS (P ++ str "_giga_temp.docx")) with ⟨rr3, fs7⟩
      rcases rr3 with e | u3
      · simp only [gigaFinish, hr1, hr2, hr3] at h
        exact absurd h (by simp)
      · simp only [gigaFinish, hr1, hr2, hr3]
        rw [os_remove_ok hr3, os_remove_ok hr2, os_remove_ok hr1]

theorem giga_success_parts (env : Env) (TS : Str) (d : EventData) (P : Str)
    (fs : Fs) (fn : Str)
    (h : (generate_gigantografia env TS d P fs).1 = .ok fn) :
    ∃ (img0 : Img) (fs2 : Fs),
      generate_gigantografia env TS d P fs = gigaFinish TS P img0 fs2 ∧
      (gigaFinish TS P img0 fs2).1 = .ok fn := by
  rcases hpt : process_template env.tplA4 tplPathA4 d
      (os_path_join TS (P ++ str "_giga_temp.docx")) fs with ⟨rt, fs1⟩
  rcases rt with e | u1
  · simp only [generate_gigantografia, hpt] at h
    exact absurd h (by simp)
  · rcases hcv : convert_docx_to_pdf env.convGiga
        (os_path_join TS (P ++ str "_giga_temp.docx"))
        (os_path_join TS (P ++ str "_giga_temp.pdf")) fs1 with ⟨rc, fs2⟩
    rcases rc with e | u2
    · simp only [generate_gigantografia, hpt, hcv] at h
      exact absurd h (by simp)
    · rcases hrz : rasterize env.rasterGiga
          (os_path_join TS (P ++ str "_giga_temp.pdf")) fs2 with e | img0
      · simp only [generate_gigantografia, hpt, hcv, hrz] at h
        exact absurd h (by simp)
      · refine ⟨img0, fs2, ?_, ?_⟩
        · simp only [generate_gigantografia, hpt, hcv, hrz]
        · simp only [generate_gigantografia, hpt, hcv, hrz] at h
          exact h

/-! ## Claim theorems -/

/-- C1: `generate_all` always returns exactly three results, one per
variant, in the fixed order a4, 4x1, gigantografia; each entry is the one
its own pipeline outcome determines — on an exception the entry records
status=error carrying the exception's message, and the remaining variants
are still attempted on the store state left behind — and `generate_all` is
a total function, so no exception escapes it. -/
theorem generate_all_isolation (env : Env) (TS : Str) (d : EventData)
    (P : Str) (fs : Fs) :
    (generate_all env TS d P fs).1 =
      [entryOf (str "a4") (generate_a4 env TS d P fs).1,
       entryOf (str "4x1") (generate_4x1 env TS d P (generate_a4 env TS d P fs).2).1,
       entryOf (str "gigantografia")
         (generate_gigantografia env TS d P
           (generate_4x1 env TS d P (generate_a4 env TS d P fs).2).2).1]
    ∧ (generate_all env TS d P fs).1.length = 3
    ∧ (generate_all env TS d P fs).1.map DocInfo.type =
        [str "a4", str "4x1", str "gigantografia"]
    ∧ (∀ ty fn, entryOf ty (.ok fn) =
        { type := ty, filename := fn, status := .success, message := none })
    ∧ (∀ ty e, entryOf ty (.error e) =
        { type := ty, filename := [], status := .error, message := some (errMsg e) })
    ∧ (∀ ty r, (entryOf ty r).status = .error ↔ ∃ e, r = .error e) := by
  rcases hg1 : generate_a4 env TS d P fs with ⟨r1, fs1⟩
  rcases hg2 : generate_4x1 env TS d P fs1 with ⟨r2, fs2⟩
  rcases hg3 : generate_gigantografia env TS d P fs2 with ⟨r3, fs3⟩
  have hlist : (generate_all env TS d P fs).1 =
      [entryOf (str "a4") r1, entryOf (str "4x1") r2, entryOf (str "gigantografia") r3] := by
    simp only [generate_all, hg1, hg2, hg3]
    cases r1 <;> cases r2 <;> cases r3 <;> rfl
  refine ⟨?_, ?_, ?_, fun ty fn => rfl, fun ty e => rfl, fun ty r => ?_⟩
  · simp only [hg1, hg2, hg3]
    exact hlist
  · rw [hlist]
    rfl
  · rw [hlist]
    cases r1 <;> cases r2 <;> cases r3 <;> rfl
  · cases r with
    | ok fn => simp [entryOf]
    | error e => simp [entryOf]

/-- C4: whenever a variant pipeline succeeds it records exactly the
filename `P_suffix.pdf`, and the suffix mapping compact→a4, banner→4x1,
large_format→gigantografia is one-to-one. -/
theorem filename_convention (env : Env) (TS : Str) (d : EventData)
    (P : Str) (fs : Fs) :
    (∀ fn, (generate_a4 env TS d P fs).1 = .ok fn →
        fn = P ++ str "_" ++ suffixOf .compact ++ str ".pdf")
    ∧ (∀ fn, (generate_4x1 env TS d P fs).1 = .ok fn →
        fn = P ++ str "_" ++ suffixOf .banner ++ str ".pdf")
    ∧ (∀ fn, (generate_gigantografia env TS d P fs).1 = .ok fn →
        fn = P ++ str "_" ++ suffixOf .large_format ++ str ".pdf")
    ∧ Function.Injective suffixOf := by
  refine ⟨?_, ?_, ?_, ?_⟩
  · intro fn h
    rcases hpt : process_template env.tplA4 tplPathA4 d
        (os_path_join TS (P ++ str "_a4.docx")) fs with ⟨rt, fs1⟩
    rcases rt with e | u1
    · simp only [generate_a4, hpt] at h
      exact absurd h (by simp)
    · rcases hcv : convert_docx_to_pdf env.convA4
          (os_path_join TS (P ++ str "_a4.docx"))
          (os_path_join TS (P ++ str "_a4.pdf")) fs1 with ⟨rc, fs2⟩
      rcases rc with e | u2
      · simp only [generate_a4, hpt, hcv] at h
        exact absurd h (by simp)
      · simp only [generate_a4, hpt, hcv, Except.ok.injEq] at h
        rw [← h]
        exact append_regroup P _ _ _ _ (by decide)
  · intro fn h
    rcases hpt : process_template env.tpl4x1 tplPath4x1 d
        (os_path_join TS (P ++ str "_4x1.docx")) fs with ⟨rt, fs1⟩
    rcases rt with e | u1
    · simp only [generate_4x1, hpt] at h
      exact absurd h (by simp)
    · rcases hcv : convert_docx_to_pdf env.conv4x1
          (os_path_join TS (P ++ str "_4x1.docx"))
          (os_path_join TS (P ++ str "_4x1.pdf")) fs1 with ⟨rc, fs2⟩
      rcases rc with e | u2
      · simp only [generate_4x1, hpt, hcv] at h
        exact absurd h (by simp)
      · simp only [generate_4x1, hpt, hcv, Except.ok.injEq] at h
        rw [← h]
        exact append_regroup P _ _ _ _ (by decide)
  · intro fn h
    obtain ⟨img0, fs2, hEq, hok⟩ := giga_success_parts env TS d P fs fn h
    have hshape := gigaFinish_ok_shape TS P img0 fs2 fn hok
    rw [hshape] at hok
    simp only [Except.ok.injEq] at hok
    rw [← hok]
    exact append_regroup P _ _ _ _ (by decide)
  · intro v w hvw
    cases v <;> cases w <;> first
      | rfl
      | exact absurd hvw (by decide)

/-- C4 witness: a concrete successful run records `p_a4.pdf`, which equals
`p` + `_` + `a4` + `.pdf`. -/
theorem filename_convention_witness :
    str "p_a4.pdf" = PW ++ str "_" ++ suffixOf .compact ++ str ".pdf" :=
  (filename_convention envW TSW dW PW []).1 (str "p_a4.pdf") rfl

/-- C2: every successful large-format generation leaves, at the recorded
output path, a PDF with exactly one page of exactly 11811 × 17717 page
units — the two constants being the derived values round(100/2.54·300)
and round(150/2.54·300) for the fixed 100 cm × 150 cm target at
300 DPI — and the raster placed on that page is in the 4-channel CMYK
color model. -/
theorem gigantografia_page_contract (env : Env) (TS : Str) (d : EventData)
    (P : Str) (fs : Fs) (fn : Str)
    (h : (generate_gigantografia env TS d P fs).1 = .ok fn) :
    (∃ img : Img,
        lookupFile (generate_gigantografia env TS d P fs).2
            (os_path_join TS (P ++ str "_gigantografia.pdf")) =
          some (.pdfFile [{ width := 11811, height := 17717, image := img }])
        ∧ img.mode = ColorMode.CMYK)
    ∧ (11811 : ℤ) = round ((100 : ℚ) / 2.54 * 300)
    ∧ (17717 : ℤ) = round ((150 : ℚ) / 2.54 * 300) := by
  refine ⟨?_, by norm_num [round_eq], by norm_num [round_eq]⟩
  obtain ⟨img0, fs2, hEq, hok⟩ := giga_success_parts env TS d P fs fn h
  have hshape := gigaFinish_ok_shape TS P img0 fs2 fn hok
  refine ⟨gigaRaster img0, ?_, gigaRaster_mode img0⟩
  simp only [hEq, hshape]
  have hne1 : os_path_join TS (P ++ str "_gigantografia.pdf") ≠
      os_path_join TS (P ++ str "_giga_temp.docx") :=
    storage_path_ne TS P (by decide) rfl
  have hne2 : os_path_join TS (P ++ str "_gigantografia.pdf") ≠
      os_path_join TS (P ++ str "_giga_temp.pdf") :=
    storage_path_ne TS P (by decide) rfl
  have hne3 : os_path_join TS (P ++ str "_gigantografia.pdf") ≠
      os_path_join TS (P ++ str "_temp.tiff") :=
    storage_path_ne TS P (by decide) rfl
  rw [lookupFile_removeFile_ne _ _ _ hne1, lookupFile_removeFile_ne _ _ _ hne2,
    lookupFile_removeFile_ne _ _ _ hne3, lookupFile_setFile_self]

/-- C2 witness: the contract holds on a concrete successful run. -/
theorem gigantografia_page_contract_witness :
    (∃ img : Img,
        lookupFile (generate_gigantografia envW TSW dW PW []).2
            (os_path_join TSW (PW ++ str "_gigantografia.pdf")) =
          some (.pdfFile [{ width := 11811, height := 17717, image := img }])
        ∧ img.mode = ColorMode.CMYK)
    ∧ (11811 : ℤ) = round ((100 : ℚ) / 2.54 * 300)
    ∧ (17717 : ℤ) = round ((150 : ℚ) / 2.54 * 300) :=
  gigantografia_page_contract envW TSW dW PW []
    (PW ++ str "_gigantografia.pdf") rfl

/-- C6 counterexample: when rasterization fails mid-pipeline, the
transformation returns an error yet the filled docx and the intermediate
PDF are still present in storage — the intermediates are not cleaned up
before the call returns, contradicting the claim that they are deleted
whether the call succeeds or fails. -/
theorem giga_cleanup_cex :
    (generate_gigantografia envFail TSW dW PW []).1 = .error PyErr.pdfReadError
    ∧ lookupFile (generate_gigantografia envFail TSW dW PW []).2
        (os_path_join TSW (PW ++ str "_giga_temp.docx")) ≠ none
    ∧ lookupFile (generate_gigantografia envFail TSW dW PW []).2
        (os_path_join TSW (PW ++ str "_giga_temp.pdf")) ≠ none :=
  ⟨rfl, by decide, by decide⟩

/-- C6 amended: when the large-format transformation succeeds, none of the
three intermediate artifacts (filled docx, intermediate PDF, TIFF raster)
remains in storage on return; the cleanup runs only on the success path —
on failure intermediates may remain — and a cleanup failure raises an
exception (caught at the orchestrator) rather than being logged. -/
theorem giga_cleanup_on_success (env : Env) (TS : Str) (d : EventData)
    (P : Str) (fs : Fs) (fn : Str)
    (h : (generate_gigantografia env TS d P fs).1 = .ok fn) :
    lookupFile (generate_gigantografia env TS d P fs).2
        (os_path_join TS (P ++ str "_giga_temp.docx")) = none
    ∧ lookupFile (generate_gigantografia env TS d P fs).2
        (os_path_join TS (P ++ str "_giga_temp.pdf")) = none
    ∧ lookupFile (generate_gigantografia env TS d P fs).2
        (os_path_join TS (P ++ str "_temp.tiff")) = none := by
  obtain ⟨img0, fs2, hEq, hok⟩ := giga_success_parts env TS d P fs fn h
  have hshape := gigaFinish_ok_shape TS P img0 fs2 fn hok
  simp only [hEq, hshape]
  have hne1 : os_path_join TS (P ++ str "_giga_temp.pdf") ≠
      os_path_join TS (P ++ str "_giga_temp.docx") :=
    storage_path_ne TS P (by decide) rfl
  have hne2 : os_path_join TS (P ++ str "_temp.tiff") ≠
      os_path_join TS (P ++ str "_giga_temp.docx") :=
    storage_path_ne TS P (by decide) rfl
  have hne3 : os_path_join TS (P ++ str "_temp.tiff") ≠
      os_path_join TS (P ++ str "_giga_temp.pdf") :=
    storage_path_ne TS P (by decide) rfl
  refine ⟨?_, ?_, ?_⟩
  · exact lookupFile_removeFile_self _ _
  · rw [lookupFile_removeFile_ne _ _ _ hne1]
    exact lookupFile_removeFile_self _ _
  · rw [lookupFile_removeFile_ne _ _ _ hne2, lookupFile_removeFile_ne _ _ _ hne3]
    exact lookupFile_removeFile_self _ _

/-- C6 witness: cleanup of all three intermediates on a concrete
successful run. -/
theorem giga_cleanup_on_success_witness :
    lookupFile (generate_gigantografia envW TSW dW PW []).2
        (os_path_join TSW (PW ++ str "_giga_temp.docx")) = none
    ∧ lookupFile (generate_gigantografia envW TSW dW PW []).2
        (os_path_join TSW (PW ++ str "_giga_temp.pdf")) = none
    ∧ lookupFile (generate_gigantografia envW TSW dW PW []).2
        (os_path_join TSW (PW ++ str "_temp.tiff")) = none :=
  giga_cleanup_on_success envW TSW dW PW [] (PW ++ str "_gigantografia.pdf") rfl

/-- C5 counterexample: with exit status zero and no output produced, the
converter surfaces a raw FileNotFoundError from the rename when the
requested path differs from the derived output name, and no error at all
when they coincide — never a ConversionFailed. -/
theorem convert_missing_output_cex :
    (convert_docx_to_pdf { exitOk := true, produces := false }
        (str "in.docx") (str "out.pdf") []).1 =
      .error (.fileNotFound (str "in.pdf"))
    ∧ (∀ m : Str, (convert_docx_to_pdf { exitOk := true, produces := false }
        (str "in.docx") (str "out.pdf") []).1 ≠ .error (.conversionFailed m))
    ∧ (convert_docx_to_pdf { exitOk := true, produces := false }
        (str "a.docx") (str "a.pdf") []).1 = .ok () := by
  have h1 : (convert_docx_to_pdf { exitOk := true, produces := false }
      (str "in.docx") (str "out.pdf") []).1 =
        .error (.fileNotFound (str "in.pdf")) := rfl
  refine ⟨h1, ?_, rfl⟩
  intro m hm
  rw [h1] at hm
  simp at hm

/-- C5 amended: the converter fails with the external process error on a
non-zero exit; when the process exits zero but produces no output, it
fails with a raw FileNotFoundError naming the derived output path whenever
the requested path differs from that name, and returns success with no
existence check at all when the two coincide. -/
theorem convert_failure_modes (cenv : ConvEnv) (docxPath pdfPath : Str)
    (fs : Fs)
    (hgen : lookupFile fs (replaceAll docxPath (str ".docx") (str ".pdf")) = none) :
    (cenv.exitOk = false →
      (convert_docx_to_pdf cenv docxPath pdfPath fs).1 = .error .calledProcessError)
    ∧ (cenv.exitOk = true → cenv.produces = false →
        (replaceAll docxPath (str ".docx") (str ".pdf") ≠ pdfPath →
          (convert_docx_to_pdf cenv docxPath pdfPath fs).1 =
            .error (.fileNotFound (replaceAll docxPath (str ".docx") (str ".pdf"))))
        ∧ (replaceAll docxPath (str ".docx") (str ".pdf") = pdfPath →
          (convert_docx_to_pdf cenv docxPath pdfPath fs).1 = .ok ())) := by
  constructor
  · intro hx
    rw [convert_docx_to_pdf, if_pos hx]
  · intro hx hp
    constructor
    · intro hne
      rw [convert_docx_to_pdf, if_neg (by simp [hx])]
      simp only [hp, Bool.false_eq_true, if_false, if_neg hne, hgen]
    · intro he
      rw [convert_docx_to_pdf, if_neg (by simp [hx])]
      simp only [hp, Bool.false_eq_true, if_false, if_pos he]

/-- C5 witness: the raw FileNotFoundError mode at a concrete input. -/
theorem convert_failure_modes_witness :
    (convert_docx_to_pdf { exitOk := true, produces := false }
        (str "doc.docx") (str "dest.pdf") []).1 =
      .error (.fileNotFound (replaceAll (str "doc.docx") (str ".docx") (str ".pdf"))) :=
  ((convert_failure_modes { exitOk := true, produces := false } (str "doc.docx")
      (str "dest.pdf") [] rfl).2 rfl rfl).1 (by decide)

/-- C3 counterexample: the claim as stated is false when a field value
itself contains another marker.  With the fecha value equal to the literal
hora marker and the hora value "X", a run that is exactly one occurrence
of the fecha marker is rewritten by the second pass as well: the result is
"X", not the mapped fecha value with all other text unchanged. -/
theorem marker_value_rewritten_cex :
    replaceInText fechaMarker dCex = str "X"
    ∧ replaceInText fechaMarker dCex ≠ dCex.fecha_evento := by
  exact ⟨by decide, by decide⟩

/-- C3 (amended): template processing rewrites every paragraph run and
every table-cell run by the replacement loop, leaving run formatting and
the document's structure untouched, and raises no error when the template
exists; in a run whose marker occurrences are cleanly delimited for each
of the four sequential passes — the decomposition lists every occurrence,
no marker matches inside a gap, inside another occurrence or in the tail,
and the substituted values neither contain markers nor combine with
adjacent text into new ones — every occurrence of every marker, for any
number of markers and occurrences in the run, is replaced by its mapped
field value with all non-marker text unchanged; and an empty reference
value is substituted as the empty string. -/
theorem template_replacement (d : EventData) :
    (∀ r : Run, processRun d r = { text := replaceInText r.text d, fmt := r.fmt })
    ∧ (∀ p : Para, (processPara d p).runs = p.runs.map (processRun d))
    ∧ (∀ c : TableCell, (processCell d c).paras = c.paras.map (processPara d))
    ∧ (∀ r : TableRow, (processRow d r).cells = r.cells.map (processCell d))
    ∧ (∀ t : DocxTable, (processTable d t).rows = t.rows.map (processRow d))
    ∧ (∀ doc : DocxFile, processDoc d doc =
        { paras := doc.paras.map (processPara d),
          tables := doc.tables.map (processTable d) })
    ∧ (∀ (tpl : DocxFile) (tplPath outPath : Str) (fsx : Fs),
        process_template (some tpl) tplPath d outPath fsx =
          (.ok (), setFile fsx outPath (.docxFile (processDoc d tpl))))
    ∧ (∀ (ps : List (Str × Fin 4)) (tail : Str),
        (∀ j : Fin 4, passOKb d j ps tail = true) →
        replaceInText (assembleOrig ps tail) d = assembleSubst d ps tail)
    ∧ (d.referencia_evento = [] → ∀ a b : Str,
        (∀ j : Fin 4, passOKb d j [(a, 3)] b = true) →
        replaceInText (assembleOrig [(a, 3)] b) d = a ++ b) := by
  refine ⟨fun r => rfl, fun p => rfl, fun c => rfl, fun r => rfl, fun t => rfl,
    fun doc => rfl, fun tpl tp op fsx => rfl, replaceInText_assemble d, ?_⟩
  intro href a b hps
  have hmain := replaceInText_assemble d [(a, 3)] b hps
  have hsub : assembleSubst d [(a, (3 : Fin 4))] b =
      a ++ (d.referencia_evento ++ b) := rfl
  rw [hsub, href, List.nil_append] at hmain
  exact hmain

/-- C3 witness: a concrete run holding two occurrences of the fecha
marker, a hora occurrence and a reference occurrence with an empty
reference value is rewritten to the simultaneous substitution of all four
occurrences. -/
theorem template_replacement_witness :
    replaceInText (assembleOrig psW tailW) dW = assembleSubst dW psW tailW :=
  (template_replacement dW).2.2.2.2.2.2.2.1 psW tailW (by decide)

/-! ## Helper: updating one session leaves the map's other entries alone -/

theorem lookupSession_update (ss : Sessions) (sid : Str)
    (f : SessionData → SessionData) :
    lookupSession (updateSession ss sid f) sid = (lookupSession ss sid).map f := by
  induction ss with
  | nil => rfl
  | cons e rest ih =>
    rw [updateSession, List.map_cons]
    by_cases h : e.1 = sid
    · rw [if_pos (by simp [h]), lookupSession,
        List.find?_cons_of_pos _ (by simp [h])]
      have hr : lookupSession (e :: rest) sid = some e.2 := by
        rw [lookupSession, List.find?_cons_of_pos _ (by simp [h])]
        rfl
      rw [hr]
      rfl
    · rw [if_neg (by simp [h]), lookupSession,
        List.find?_cons_of_neg _ (by simp [h])]
      have hr : lookupSession (e :: rest) sid = lookupSession rest sid := by
        rw [lookupSession, List.find?_cons_of_neg _ (by simp [h])]
        rfl
      rw [hr]
      exact ih

/-- C7 counterexample: a filename with a traversal sequence resolves
outside the storage root yet lookup still returns a path, and a directory
(not a regular file) inside the root also produces a hit. -/
theorem lookup_traversal_cex :
    get_file_path (str "store") [{ path := [str "secret"], isFile := true }]
        (str "../secret") ≠ none
    ∧ get_file_path (str "store")
        [{ path := [str "store", str "sub"], isFile := false }] (str "sub") ≠ none := by
  constructor <;> decide

/-- C7 amended: lookup returns the joined path exactly when some
filesystem entry — regular file or directory — exists at the OS-resolved
joined path, and none otherwise; a regular file present at the resolved
joined path is in particular found, but traversal sequences are not
rejected and non-file entries also count. -/
theorem get_file_path_behavior (storage : Str) (ofs : OsFs) (filename : Str) :
    (get_file_path storage ofs filename = some (os_path_join storage filename) ↔
      osExists ofs (os_path_join storage filename) = true)
    ∧ (get_file_path storage ofs filename = none ↔
      osExists ofs (os_path_join storage filename) = false)
    ∧ (∀ e : OsEntry, e ∈ ofs →
        e.path = resolvePath (os_path_join storage filename) →
        get_file_path storage ofs filename = some (os_path_join storage filename)) := by
  refine ⟨?_, ?_, ?_⟩
  · rw [get_file_path]
    cases hx : osExists ofs (os_path_join storage filename)
    · simp [hx]
    · simp [hx]
  · rw [get_file_path]
    cases hx : osExists ofs (os_path_join storage filename)
    · simp [hx]
    · simp [hx]
  · intro e he hp
    rw [get_file_path]
    have hex : osExists ofs (os_path_join storage filename) = true := by
      rw [osExists, List.any_eq_true]
      exact ⟨e, he, by rw [beq_iff_eq]; exact hp⟩
    simp [hex]

/-- C7 witness: a regular file by the exact name directly inside the root
is found. -/
theorem get_file_path_behavior_witness :
    get_file_path (str "store")
        [{ path := [str "store", str "f.pdf"], isFile := true }] (str "f.pdf") =
      some (os_path_join (str "store") (str "f.pdf")) :=
  (get_file_path_behavior (str "store")
      [{ path := [str "store", str "f.pdf"], isFile := true }] (str "f.pdf")).2.2
    { path := [str "store", str "f.pdf"], isFile := true }
    (by simp) (by decide)

/-! ## Helper: the sweep keeps exactly the entries `keptFile` accepts -/

theorem keptFile_eq_true_iff (cutoff : Int) (u : List Str) (e : TmpFile) :
    keptFile cutoff u e = true ↔
      ¬(e.isFile = true ∧ e.mtime < cutoff ∧ u.contains e.name = false) := by
  rw [keptFile]
  cases hf : e.isFile <;> cases hc : u.contains e.name <;>
    by_cases hm : e.mtime < cutoff <;> simp [hf, hc, hm]

theorem sweepFiles_eq_filter (cutoff : Int) (u : List Str) :
    ∀ l : List TmpFile, sweepFiles cutoff u l = l.filter (keptFile cutoff u) := by
  intro l
  induction l with
  | nil => rfl
  | cons e rest ih =>
    rw [sweepFiles, List.filter_cons]
    by_cases h1 : e.isFile = true ∧ e.mtime < cutoff
    · rw [if_pos h1]
      cases h2 : u.contains e.name
      · simp only [Bool.false_eq_true, if_false]
        rw [ih, if_neg (fun hk =>
          ((keptFile_eq_true_iff cutoff u e).mp hk) ⟨h1.1, h1.2, h2⟩)]
      · rw [if_pos rfl, ih,
          if_pos ((keptFile_eq_true_iff cutoff u e).mpr (fun hc => by
            rw [h2] at hc
            exact absurd hc.2.2 (by simp)))]
    · rw [if_neg h1, ih,
        if_pos (keptFile_eq_true_iff cutoff u e |>.mpr (fun hc => h1 ⟨hc.1, hc.2.1⟩))]

/-- C8: the sweep deletes exactly the deletable regular files strictly
older than the cutoff now − hours·3600 and keeps every other entry in
place; an individual deletion failure (an undeletable name) leaves only
that file behind without aborting the rest of the sweep; and running the
sweep again immediately deletes nothing new. -/
theorem cleanup_sweep_spec (entries : List TmpFile) (undeletable : List Str)
    (now hours : Int) :
    cleanup_old_files entries undeletable now hours =
      entries.filter (keptFile (now - hours * 3600) undeletable)
    ∧ (∀ e ∈ entries, e.isFile = true → e.mtime < now - hours * 3600 →
        undeletable.contains e.name = false →
        e ∉ cleanup_old_files entries undeletable now hours)
    ∧ (∀ e ∈ entries, ¬ e.mtime < now - hours * 3600 →
        e ∈ cleanup_old_files entries undeletable now hours)
    ∧ (∀ e ∈ entries, e.isFile = false →
        e ∈ cleanup_old_files entries undeletable now hours)
    ∧ cleanup_old_files (cleanup_old_files entries undeletable now hours)
        undeletable now hours =
      cleanup_old_files entries undeletable now hours := by
  have hchar : cleanup_old_files entries undeletable now hours =
      entries.filter (keptFile (now - hours * 3600) undeletable) :=
    sweepFiles_eq_filter _ _ entries
  refine ⟨hchar, ?_, ?_, ?_, ?_⟩
  · intro e he hf hm hc hmem
    rw [hchar] at hmem
    have := (List.mem_filter.mp hmem).2
    exact absurd ⟨hf, hm, hc⟩ ((keptFile_eq_true_iff _ _ _).mp this)
  · intro e he hm
    rw [hchar]
    exact List.mem_filter.mpr
      ⟨he, (keptFile_eq_true_iff _ _ _).mpr (fun hc => hm hc.2.1)⟩
  · intro e he hf
    rw [hchar]
    exact List.mem_filter.mpr
      ⟨he, (keptFile_eq_true_iff _ _ _).mpr (fun hc => by rw [hf] at hc; simp at hc)⟩
  · have hchar2 : cleanup_old_files
        (entries.filter (keptFile (now - hours * 3600) undeletable))
        undeletable now hours =
        (entries.filter (keptFile (now - hours * 3600) undeletable)).filter
          (keptFile (now - hours * 3600) undeletable) :=
      sweepFiles_eq_filter _ _ _
    rw [hchar, hchar2, List.filter_filter]
    congr 1
    funext e
    exact Bool.and_self _

/-- C8 witness: a young file survives a concrete sweep. -/
theorem cleanup_sweep_spec_witness :
    ({ name := str "new.pdf", mtime := 90000, isFile := true } : TmpFile) ∈
      cleanup_old_files
        [{ name := str "old.pdf", mtime := 0, isFile := true },
         { name := str "new.pdf", mtime := 90000, isFile := true }] [] 100000 24 :=
  (cleanup_sweep_spec
      [{ name := str "old.pdf", mtime := 0, isFile := true },
       { name := str "new.pdf", mtime := 90000, isFile := true }] [] 100000 24).2.2.1
    { name := str "new.pdf", mtime := 90000, isFile := true }
    (by simp) (by decide)

/-- C9: for a known session and a request question number q ∈ {1,2,3}, the
per-session state follows exactly the claimed transitions: a correct
answer at q < 3 advances the session to question q+1 (authentication
untouched), a correct answer at q = 3 marks the session authenticated,
and an incorrect answer at any q resets the session to question 1
(authentication untouched); no error is raised in any of these cases. -/
theorem validate_answer_transitions (ss : Sessions) (sid : Str) (qn : Nat)
    (answer : Str) (s0 : SessionData)
    (hs : lookupSession ss sid = some s0) (h1 : 1 ≤ qn) (h3 : qn ≤ 3) :
    ∃ ss' resp, validate_answer ss sid qn answer = .ok (ss', resp) ∧
      ∃ s1, lookupSession ss' sid = some s1 ∧
        ((normalize_text answer = expectedAnswer qn → qn < 3 →
            s1.current_question = qn + 1 ∧ s1.authenticated = s0.authenticated)
         ∧ (normalize_text answer = expectedAnswer qn → qn = 3 →
            s1.authenticated = true)
         ∧ (normalize_text answer ≠ expectedAnswer qn →
            s1.current_question = 1 ∧ s1.authenticated = s0.authenticated)) := by
  interval_cases qn
  · by_cases hc : normalize_text answer = expectedAnswer 1
    · refine ⟨updateSession ss sid (fun s => { s with current_question := 1 + 1 }),
        { success := true, message := none, next_question := some question2.number,
          question_text := some question2.text }, ?_, ?_⟩
      · simp [validate_answer, hs, security_questions, expectedAnswer, hc]
      · refine ⟨{ s0 with current_question := 1 + 1 },
          by rw [lookupSession_update, hs]; rfl, fun _ _ => ⟨rfl, rfl⟩,
          fun _ hq => absurd hq (by decide), fun hn => absurd hc hn⟩
    · refine ⟨updateSession ss sid (fun s => { s with current_question := 1 }),
        { success := false,
          message := some (str "Respuesta incorrecta. Reiniciando..."),
          next_question := some 1, question_text := some question1.text }, ?_, ?_⟩
      · simp [validate_answer, hs, security_questions, expectedAnswer]
        exact fun hcc => absurd hcc hc
      · refine ⟨{ s0 with current_question := 1 },
          by rw [lookupSession_update, hs]; rfl,
          fun hcc _ => absurd hcc hc, fun hcc _ => absurd hcc hc,
          fun _ => ⟨rfl, rfl⟩⟩
  · by_cases hc : normalize_text answer = expectedAnswer 2
    · refine ⟨updateSession ss sid (fun s => { s with current_question := 2 + 1 }),
        { success := true, message := none, next_question := some question3.number,
          question_text := some question3.text }, ?_, ?_⟩
      · simp [validate_answer, hs, security_questions, expectedAnswer, hc]
      · refine ⟨{ s0 with current_question := 2 + 1 },
          by rw [lookupSession_update, hs]; rfl, fun _ _ => ⟨rfl, rfl⟩,
          fun _ hq => absurd hq (by decide), fun hn => absurd hc hn⟩
    · refine ⟨updateSession ss sid (fun s => { s with current_question := 1 }),
        { success := false,
          message := some (str "Respuesta incorrecta. Reiniciando..."),
          next_question := some 1, question_text := some question1.text }, ?_, ?_⟩
      · simp [validate_answer, hs, security_questions, expectedAnswer]
        exact fun hcc => absurd hcc hc
      · refine ⟨{ s0 with current_question := 1 },
          by rw [lookupSession_update, hs]; rfl,
          fun hcc _ => absurd hcc hc, fun hcc _ => absurd hcc hc,
          fun _ => ⟨rfl, rfl⟩⟩
  · by_cases hc : normalize_text answer = expectedAnswer 3
    · refine ⟨updateSession ss sid (fun s => { s with authenticated := true }),
        { success := true, message := some (str "Autenticación exitosa"),
          next_question := none, question_text := none }, ?_, ?_⟩
      · simp [validate_answer, hs, security_questions, expectedAnswer, hc]
      · refine ⟨{ s0 with authenticated := true },
          by rw [lookupSession_update, hs]; rfl,
          fun _ hq => absurd hq (by decide), fun _ _ => rfl,
          fun hn => absurd hc hn⟩
    · refine ⟨updateSession ss sid (fun s => { s with current_question := 1 }),
        { success := false,
          message := some (str "Respuesta incorrecta. Reiniciando..."),
          next_question := some 1, question_text := some question1.text }, ?_, ?_⟩
      · simp [validate_answer, hs, security_questions, expectedAnswer]
        exact fun hcc => absurd hcc hc
      · refine ⟨{ s0 with current_question := 1 },
          by rw [lookupSession_update, hs]; rfl,
          fun hcc _ => absurd hcc hc, fun hcc _ => absurd hcc hc,
          fun _ => ⟨rfl, rfl⟩⟩

/-- C9 witness: a concrete session answering question 1 correctly (after
normalization) advances to question 2. -/
theorem validate_answer_transitions_witness :
    ∃ ss' resp, validate_answer ssW sid1 1 ansW = .ok (ss', resp) ∧
      ∃ s1, lookupSession ss' sid1 = some s1 ∧
        ((normalize_text ansW = expectedAnswer 1 → 1 < 3 →
            s1.current_question = 1 + 1 ∧ s1.authenticated = sess1.authenticated)
         ∧ (normalize_text ansW = expectedAnswer 1 → 1 = 3 →
            s1.authenticated = true)
         ∧ (normalize_text ansW ≠ expectedAnswer 1 →
            s1.current_question = 1 ∧ s1.authenticated = sess1.authenticated)) :=
  validate_answer_transitions ssW sid1 1 ansW sess1 rfl (by decide) (by decide)

/-- C10: the store's `isAuthenticated` computed is true exactly when the
authenticated flag is set and the session id is non-null — after any
sequence of store actions from any state — so `setAuthenticated(true)`
with a null session id leaves it false, `clearSession` always makes it
false, and the router guard then redirects a guarded route to the login
view. -/
theorem session_store_invariant (s0 : StoreState) (ops : List StoreOp) :
    (isAuthenticated (applyOps s0 ops) = true ↔
      ((applyOps s0 ops).authenticated = true ∧ (applyOps s0 ops).sessionId ≠ none))
    ∧ (∀ b : Bool, isAuthenticated
        (applyOp { sessionId := none, authenticated := b }
          (.setAuthenticated true)) = false)
    ∧ (∀ s : StoreState, isAuthenticated (applyOp s .clearSession) = false)
    ∧ (∀ s : StoreState,
        beforeEach { requiresAuth := true } (applyOp s .clearSession) =
          .redirectLogin) := by
  refine ⟨?_, fun b => rfl, fun s => rfl, fun s => rfl⟩
  simp [isAuthenticated, Bool.and_eq_true, Option.isSome_iff_ne_none]

end Afiche
